import Mathlib

/-!
# Shallow embedding of `src/PriorityScheduler.h`

The repository ships a header-only scheduler: `PriorityScheduler.h` declares the
data types (`sch_item_prof_t`, `sch_item_t`) and the `Scheduler` class interface,
together with documentation comments, but no function bodies are present under
`src/`.  The data types below are translated from the header's struct
declarations; every operation body is therefore modelled from the specification
(its doc comment says so and names the missing member function).

Modelling conventions:
* machine integers are `Nat`/`Int` with explicit truncation where overflow
  matters: `u32` for the `uint32_t` fields (`pid`, `thread_time_to_wait`,
  `thread_period`, loop counters) and `toInt16` for the `int16_t` field
  `thread_recurs`;
* the intrusive singly-linked list rooted at `schedule_root_node` is a
  `List ScheduleItem` (the `next` pointer is the list structure);
* a `FunctionPointer` callback is an opaque token: `Option Nat` at the API
  boundary, where `none` is the null pointer, and the stored callback of a
  live schedule is the `Nat` token (the engine only ever invokes it);
* wall-clock measurement for profiling is an injected capability: the service
  pass receives a function giving the measured duration of each callback.
-/

namespace PriorityScheduler

/-- Truncation to a 32-bit unsigned value, as stored in the `uint32_t` fields. -/
def u32 (x : Nat) : Nat := x % 2 ^ 32

/-- Conversion of an integer to the `int16_t` range, the two's-complement
wrap applied when a caller passes a value into an `int16_t` parameter. -/
def toInt16 (x : Int) : Int := (x + 32768) % 65536 - 32768

/-- `sch_item_prof_t` from the header: per-schedule profiling data. -/
structure ScheduleProfile where
  last_time_micros : Nat
  worst_time_micros : Nat
  best_time_micros : Nat
  execution_count : Nat
  profiling_active : Bool
  deriving Repr, DecidableEq

/-- `sch_item_t` from the header.  The `next` pointer is represented by the
surrounding list; `prof_data` is the optionally attached profile record. -/
structure ScheduleItem where
  pid : Nat
  thread_time_to_wait : Nat
  thread_period : Nat
  thread_recurs : Int
  thread_enabled : Bool
  thread_fire : Bool
  autoclear : Bool
  schedule_callback : Nat
  prof_data : Option ScheduleProfile
  deriving Repr, DecidableEq

/-- The `Scheduler` engine state: the private members `next_pid`,
`schedule_root_node` (as a list) and `currently_executing`, plus the public
profiling counters. -/
structure Scheduler where
  next_pid : Nat
  schedules : List ScheduleItem
  currently_executing : Nat
  productive_loops : Nat
  total_loops : Nat
  overhead : Nat
  deriving Repr, DecidableEq

/-- Modelled from the spec: the `Scheduler()` constructor body is absent from
`src/`.  The registry starts empty and, since every live id is non-zero and the
next-id counter is monotonic from the start of the engine's life, the first
assigned pid is `1`. -/
def initScheduler : Scheduler :=
  { next_pid := 1, schedules := [], currently_executing := 0,
    productive_loops := 0, total_loops := 0, overhead := 0 }

/-- Modelled from the spec: `Scheduler::findNodeByPID` body is absent from
`src/`.  Walks the linked list and returns the first node with the given pid. -/
def findNodeByPID (items : List ScheduleItem) (g_pid : Nat) : Option ScheduleItem :=
  items.find? (fun it => it.pid == g_pid)

/-- Helper for the mutating registry operations: walk the list, apply `f` to
the first node whose pid matches, and report whether a node was found. -/
def updateByPID : List ScheduleItem → Nat → (ScheduleItem → ScheduleItem) →
    Bool × List ScheduleItem
  | [], _, _ => (false, [])
  | it :: rest, g_pid, f =>
    if it.pid = g_pid then (true, f it :: rest)
    else
      let r := updateByPID rest g_pid f
      (r.1, it :: r.2)

/-- Helper for removal: drop the first node whose pid matches. -/
def removeByPID : List ScheduleItem → Nat → Bool × List ScheduleItem
  | [], _ => (false, [])
  | it :: rest, g_pid =>
    if it.pid = g_pid then (true, rest)
    else
      let r := removeByPID rest g_pid
      (r.1, it :: r.2)

/-- Modelled from the spec: `Scheduler::get_valid_new_pid` body is absent from
`src/`.  The next-id counter is monotonic for the life of the engine and a
removed id is never reassigned; `0` is the invalid id.  The counter wraps at
its 32-bit width, at which point (`next_pid = 0`) the identifier space is
exhausted and no further pid is handed out. -/
def get_valid_new_pid (s : Scheduler) : Nat × Scheduler :=
  if s.next_pid = 0 then (0, s)
  else (s.next_pid, { s with next_pid := u32 (s.next_pid + 1) })

/-- Modelled from the spec: `Scheduler::createSchedule` body is absent from
`src/`.  Allocates a new schedule with `time_to_wait = period`,
`enabled = true`, `fire_pending = false`, no profile, appended to the registry;
returns the invalid id `0` (leaving the registry unchanged) exactly when the
callback is null or the identifier space is exhausted. -/
def createSchedule (s : Scheduler) (sch_period : Nat) (recurrence : Int)
    (auto_clear : Bool) (sch_callback : Option Nat) : Nat × Scheduler :=
  match sch_callback with
  | none => (0, s)
  | some cb =>
    let r := get_valid_new_pid s
    if r.1 = 0 then (0, s)
    else
      (r.1, { r.2 with schedules := r.2.schedules ++
        [{ pid := r.1, thread_time_to_wait := u32 sch_period,
           thread_period := u32 sch_period, thread_recurs := toInt16 recurrence,
           thread_enabled := true, thread_fire := false, autoclear := auto_clear,
           schedule_callback := cb, prof_data := none }] })

/-- Modelled from the spec: `Scheduler::removeSchedule` body is absent from
`src/`.  Deletes the record immediately and unconditionally; false if not
found. -/
def removeSchedule (s : Scheduler) (g_pid : Nat) : Bool × Scheduler :=
  let r := removeByPID s.schedules g_pid
  (r.1, { s with schedules := r.2 })

/-- Modelled from the spec: `Scheduler::enableSchedule` body is absent from
`src/`.  Sets `enabled` without touching any other field; false if not found. -/
def enableSchedule (s : Scheduler) (g_pid : Nat) : Bool × Scheduler :=
  let r := updateByPID s.schedules g_pid (fun it => { it with thread_enabled := true })
  (r.1, { s with schedules := r.2 })

/-- Modelled from the spec: `Scheduler::disableSchedule` body is absent from
`src/`.  Clears `enabled` without touching any other field; false if not
found. -/
def disableSchedule (s : Scheduler) (g_pid : Nat) : Bool × Scheduler :=
  let r := updateByPID s.schedules g_pid (fun it => { it with thread_enabled := false })
  (r.1, { s with schedules := r.2 })

/-- Modelled from the spec: the two-argument `Scheduler::delaySchedule` body is
absent from `src/`.  Sets `time_to_wait` to the given value for this occurrence
only, altering neither `period` nor `enabled`. -/
def delaySchedule (s : Scheduler) (g_pid : Nat) (by_ms : Nat) : Bool × Scheduler :=
  let r := updateByPID s.schedules g_pid
    (fun it => { it with thread_time_to_wait := u32 by_ms })
  (r.1, { s with schedules := r.2 })

/-- Modelled from the spec: the zero-argument `Scheduler::delaySchedule`
overload body is absent from `src/`.  Re-arms the schedule from its canonical
period: `time_to_wait = period` and `enabled = true`. -/
def delayScheduleReset (s : Scheduler) (g_pid : Nat) : Bool × Scheduler :=
  let r := updateByPID s.schedules g_pid
    (fun it => { it with thread_time_to_wait := it.thread_period,
                         thread_enabled := true })
  (r.1, { s with schedules := r.2 })

/-- Modelled from the spec: `Scheduler::alterSchedulePeriod` body is absent
from `src/`.  Updates only the `period` field of an existing schedule. -/
def alterSchedulePeriod (s : Scheduler) (g_pid : Nat) (sch_period : Nat) :
    Bool × Scheduler :=
  let r := updateByPID s.schedules g_pid
    (fun it => { it with thread_period := u32 sch_period })
  (r.1, { s with schedules := r.2 })

/-- Modelled from the spec: `Scheduler::alterScheduleRecurrence` body is absent
from `src/`.  Updates only the recurrence counter of an existing schedule. -/
def alterScheduleRecurrence (s : Scheduler) (g_pid : Nat) (recurrence : Int) :
    Bool × Scheduler :=
  let r := updateByPID s.schedules g_pid
    (fun it => { it with thread_recurs := toInt16 recurrence })
  (r.1, { s with schedules := r.2 })

/-- Modelled from the spec: `Scheduler::scheduleEnabled` body is absent from
`src/`.  True iff the schedule exists and is enabled. -/
def scheduleEnabled (s : Scheduler) (g_pid : Nat) : Bool :=
  match findNodeByPID s.schedules g_pid with
  | none => false
  | some it => it.thread_enabled

/-- Modelled from the spec: `Scheduler::willRunAgain` body is absent from
`src/`.  True iff the schedule exists, is enabled, and its recurrence counter
is `-1` or greater than `0`; false on an unknown id. -/
def willRunAgain (s : Scheduler) (g_pid : Nat) : Bool :=
  match findNodeByPID s.schedules g_pid with
  | none => false
  | some it =>
    it.thread_enabled && (it.thread_recurs == -1 || decide (0 < it.thread_recurs))

/-- Modelled from the spec: `Scheduler::getTotalSchedules` body is absent from
`src/` (the header declares a `uint16_t` result). -/
def getTotalSchedules (s : Scheduler) : Nat := s.schedules.length % 2 ^ 16

/-- Modelled from the spec: `Scheduler::getActiveSchedules` body is absent from
`src/`: the number of enabled schedules. -/
def getActiveSchedules (s : Scheduler) : Nat :=
  (s.schedules.filter (fun it => it.thread_enabled)).length % 2 ^ 16

/-- Modelled from the spec: `Scheduler::peekNextPID` body is absent from
`src/`: the next pid without incrementing it. -/
def peekNextPID (s : Scheduler) : Nat := s.next_pid

/-- One step of `advanceScheduler` on a single schedule node: an enabled
schedule's countdown is decremented by the elapsed ticks, clamped at zero
(truncated `Nat` subtraction is the clamp); when it reaches zero the schedule
is marked fire-pending and the countdown stays at zero.  A disabled schedule is
not evaluated at all. -/
def advanceItem (elapsed : Nat) (it : ScheduleItem) : ScheduleItem :=
  if it.thread_enabled then
    let ttw := it.thread_time_to_wait - elapsed
    if ttw = 0 then { it with thread_time_to_wait := 0, thread_fire := true }
    else { it with thread_time_to_wait := ttw }
  else it

/-- Modelled from the spec: `Scheduler::advanceScheduler` body is absent from
`src/`.  The header declares the zero-argument `void advanceScheduler(void)`
pushing every enabled schedule forward by one tick; the spec's
`Advance(elapsed_ticks)` generalisation is modelled here, the header's call
being `elapsed = 1`. -/
def advanceScheduler (s : Scheduler) (elapsed : Nat) : Scheduler :=
  { s with schedules := s.schedules.map (advanceItem elapsed) }

/-- Recording one measured callback duration into a profile record, if the
profile is actively collecting: `last` is the sample, `best`/`worst` are
initialised from the first sample and thereafter min/max, and the execution
count is incremented. -/
def profSample (dur : Nat) (p : ScheduleProfile) : ScheduleProfile :=
  if p.profiling_active then
    { last_time_micros := u32 dur
      worst_time_micros :=
        if p.execution_count = 0 then u32 dur else max p.worst_time_micros (u32 dur)
      best_time_micros :=
        if p.execution_count = 0 then u32 dur else min p.best_time_micros (u32 dur)
      execution_count := u32 (p.execution_count + 1)
      profiling_active := true }
  else p

/-- The recurrence counter after one firing: a positive counter is
decremented, every other value (`-1` infinite, `0` exhausted, and any value
below `-1`) is left unchanged. -/
def recursAfterFire (r : Int) : Int := if 0 < r then r - 1 else r

/-- One service pass on a single schedule node, with the measured duration of
its callback injected.  A fire-pending schedule has its callback invoked (the
profile, when active, records the sample), then the recurrence policy is
applied: a positive counter is decremented; if the resulting (or already-zero)
counter is `0` the schedule is disabled, or deleted (`none`) if `autoclear`;
if the schedule remains enabled its countdown is reset to `period` and the
fire-pending flag is cleared.  A schedule that is not fire-pending is left
untouched. -/
def serviceItem (dur : Nat) (it : ScheduleItem) : Option ScheduleItem :=
  if it.thread_fire then
    let it1 := { it with prof_data := it.prof_data.map (profSample dur) }
    let r := recursAfterFire it1.thread_recurs
    let it2 := { it1 with thread_recurs := r }
    if r = 0 then
      if it2.autoclear then none
      else some { it2 with thread_enabled := false }
    else if it2.thread_enabled then
      some { it2 with thread_time_to_wait := it2.thread_period, thread_fire := false }
    else some it2
  else some it

/-- Modelled from the spec: `Scheduler::serviceScheduledEvents` body is absent
from `src/`.  Serves every fire-pending schedule (see `serviceItem`), counts
the pass in `total_loops`, and in `productive_loops` when at least one schedule
fired.  `dur` is the injected wall-clock capability giving the measured
duration of the callback of the schedule with a given pid. -/
def serviceScheduledEvents (s : Scheduler) (dur : Nat → Nat) : Scheduler :=
  let fired := s.schedules.any (fun it => it.thread_fire)
  { s with
    schedules := s.schedules.filterMap (fun it => serviceItem (dur it.pid) it)
    total_loops := u32 (s.total_loops + 1)
    productive_loops :=
      if fired then u32 (s.productive_loops + 1) else s.productive_loops }

/-- A freshly created profile record: zero counters, actively collecting. -/
def freshProfile : ScheduleProfile :=
  { last_time_micros := 0, worst_time_micros := 0, best_time_micros := 0,
    execution_count := 0, profiling_active := true }

/-- Modelled from the spec: `Scheduler::beginProfiling` body is absent from
`src/`.  If the schedule has no profile, attach a fresh one with zero counters;
if it already has one, set `active = true` leaving the accumulated statistics
untouched.  No-op on an unknown id. -/
def beginProfiling (s : Scheduler) (g_pid : Nat) : Scheduler :=
  let r := updateByPID s.schedules g_pid (fun it =>
    match it.prof_data with
    | none => { it with prof_data := some freshProfile }
    | some p => { it with prof_data := some { p with profiling_active := true } })
  { s with schedules := r.2 }

/-- Modelled from the spec: `Scheduler::stopProfiling` body is absent from
`src/`.  Sets `active = false` without discarding history; no-op on an unknown
id or a schedule without a profile. -/
def stopProfiling (s : Scheduler) (g_pid : Nat) : Scheduler :=
  let r := updateByPID s.schedules g_pid (fun it =>
    match it.prof_data with
    | none => it
    | some p => { it with prof_data := some { p with profiling_active := false } })
  { s with schedules := r.2 }

/-- A profile record with zeroed counters and the given active flag. -/
def clearedProfile (b : Bool) : ScheduleProfile :=
  { last_time_micros := 0, worst_time_micros := 0, best_time_micros := 0,
    execution_count := 0, profiling_active := b }

/-- Modelled from the spec: `Scheduler::clearProfilingData` body is absent from
`src/`.  Resets the profile counters but preserves `active`; no-op on an
unknown id or a schedule without a profile. -/
def clearProfilingData (s : Scheduler) (g_pid : Nat) : Scheduler :=
  let r := updateByPID s.schedules g_pid (fun it =>
    match it.prof_data with
    | none => it
    | some p => { it with prof_data := some (clearedProfile p.profiling_active) })
  { s with schedules := r.2 }

/-- Modelled from the spec: `Scheduler::scheduleBeingProfiled` body is absent
from `src/`: presence-and-active state of the profile; false on an unknown
id. -/
def scheduleBeingProfiled (s : Scheduler) (g_pid : Nat) : Bool :=
  match findNodeByPID s.schedules g_pid with
  | none => false
  | some it =>
    match it.prof_data with
    | none => false
    | some p => p.profiling_active

/-- The engine's externally callable mutating operations, for stating
whole-lifetime properties over arbitrary call sequences. -/
inductive Op where
  | create (sch_period : Nat) (recurrence : Int) (auto_clear : Bool)
      (sch_callback : Option Nat)
  | remove (g_pid : Nat)
  | enable (g_pid : Nat)
  | disable (g_pid : Nat)
  | delayBy (g_pid : Nat) (by_ms : Nat)
  | delayReset (g_pid : Nat)
  | alterPeriod (g_pid : Nat) (sch_period : Nat)
  | alterRecurrence (g_pid : Nat) (recurrence : Int)
  | advance (elapsed : Nat)
  | service (dur : Nat → Nat)
  | beginProf (g_pid : Nat)
  | stopProf (g_pid : Nat)
  | clearProf (g_pid : Nat)

/-- The state transition of one engine operation. -/
def applyOp (s : Scheduler) : Op → Scheduler
  | .create p r a cb => (createSchedule s p r a cb).2
  | .remove g => (removeSchedule s g).2
  | .enable g => (enableSchedule s g).2
  | .disable g => (disableSchedule s g).2
  | .delayBy g b => (delaySchedule s g b).2
  | .delayReset g => (delayScheduleReset s g).2
  | .alterPeriod g p => (alterSchedulePeriod s g p).2
  | .alterRecurrence g r => (alterScheduleRecurrence s g r).2
  | .advance e => advanceScheduler s e
  | .service dur => serviceScheduledEvents s dur
  | .beginProf g => beginProfiling s g
  | .stopProf g => stopProfiling s g
  | .clearProf g => clearProfilingData s g

/-- The ids handed out by one operation: the pid returned by a successful
`createSchedule`, nothing otherwise. -/
def opCreated (s : Scheduler) : Op → List Nat
  | .create p r a cb =>
    let pr := createSchedule s p r a cb
    if pr.1 = 0 then [] else [pr.1]
  | _ => []

/-- Run a sequence of operations, returning the final state and the list of
all ids returned by successful creations, in order. -/
def run (s : Scheduler) : List Op → Scheduler × List Nat
  | [] => (s, [])
  | op :: ops =>
    let pr := run (applyOp s op) ops
    (pr.1, opCreated s op ++ pr.2)

/-! ## Derived definitions used by the verification -/

/-- A sequence of advance passes with the given elapsed-tick counts. -/
def advanceMany (s : Scheduler) (es : List Nat) : Scheduler :=
  es.foldl advanceScheduler s

/-- Agreement of two schedule records on every field except `thread_enabled`. -/
def frameAgrees (a b : ScheduleItem) : Prop :=
  a.pid = b.pid ∧ a.thread_time_to_wait = b.thread_time_to_wait
  ∧ a.thread_period = b.thread_period ∧ a.thread_recurs = b.thread_recurs
  ∧ a.thread_fire = b.thread_fire ∧ a.autoclear = b.autoclear
  ∧ a.schedule_callback = b.schedule_callback ∧ a.prof_data = b.prof_data

/-- The record a successful `createSchedule` appends to the registry. -/
def newSchedItem (s : Scheduler) (sch_period : Nat) (recurrence : Int)
    (auto_clear : Bool) (c : Nat) : ScheduleItem :=
  { pid := s.next_pid, thread_time_to_wait := u32 sch_period,
    thread_period := u32 sch_period, thread_recurs := toInt16 recurrence,
    thread_enabled := true, thread_fire := false, autoclear := auto_clear,
    schedule_callback := c, prof_data := none }

/-- The whole-lifetime invariant tying an engine state to the list `ids` of
all pids handed out so far: the handed-out pids are pairwise distinct,
positive, below the next-id counter (unless the counter has wrapped to `0`,
after which the identifier space is exhausted and no pid is ever handed out
again), every pid in the registry was handed out, and the counter is a 32-bit
value. -/
def EngineInv (s : Scheduler) (ids : List Nat) : Prop :=
  ids.Nodup
  ∧ (∀ i ∈ ids, 0 < i ∧ (s.next_pid = 0 ∨ i < s.next_pid))
  ∧ (∀ it ∈ s.schedules, it.pid ∈ ids)
  ∧ s.next_pid < 2 ^ 32

/-! ## Concrete fixtures for the witness theorems -/

/-- A concrete schedule used by the witness theorems. -/
def itW : ScheduleItem :=
  { pid := 1, thread_time_to_wait := 10, thread_period := 10, thread_recurs := -1,
    thread_enabled := true, thread_fire := false, autoclear := false,
    schedule_callback := 7, prof_data := none }

/-- A concrete engine state holding `itW`, used by the witness theorems. -/
def sW : Scheduler :=
  { next_pid := 2, schedules := [itW], currently_executing := 0,
    productive_loops := 0, total_loops := 0, overhead := 0 }

/-- A concrete profile record with some accumulated statistics. -/
def profW : ScheduleProfile :=
  { last_time_micros := 5, worst_time_micros := 9, best_time_micros := 2,
    execution_count := 3, profiling_active := true }

/-- A concrete profiled schedule. -/
def itP : ScheduleItem :=
  { itW with prof_data := some profW }

/-- The engine state holding the profiled schedule `itP`. -/
def sP : Scheduler :=
  { sW with schedules := [itP] }

/-- A concrete fire-pending infinite-recurrence schedule. -/
def itF : ScheduleItem :=
  { pid := 3, thread_time_to_wait := 0, thread_period := 8, thread_recurs := -1,
    thread_enabled := true, thread_fire := true, autoclear := false,
    schedule_callback := 9, prof_data := none }

/-- The schedule of `sW` after disabling. -/
def itD : ScheduleItem := { itW with thread_enabled := false }

/-- A concrete trace: create, remove, create again. -/
def opsW : List Op :=
  [Op.create 10 1 true (some 5), Op.remove 1, Op.create 3 (-1) false (some 7)]

/-! ## Helper lemmas about the registry walk -/

theorem updateByPID_fst (l : List ScheduleItem) (g : Nat) (f : ScheduleItem → ScheduleItem) :
    (updateByPID l g f).1 = (findNodeByPID l g).isSome := by
  induction l with
  | nil => simp [updateByPID, findNodeByPID]
  | cons it rest ih =>
    by_cases h : it.pid = g <;>
      simp [updateByPID, findNodeByPID, h] at ih ⊢ <;>
      simpa [findNodeByPID] using ih

theorem findNodeByPID_updateByPID (l : List ScheduleItem) (g : Nat)
    (f : ScheduleItem → ScheduleItem) (hf : ∀ it, (f it).pid = it.pid) :
    findNodeByPID (updateByPID l g f).2 g = (findNodeByPID l g).map f := by
  induction l with
  | nil => simp [updateByPID, findNodeByPID]
  | cons it rest ih =>
    by_cases h : it.pid = g
    · simp [updateByPID, findNodeByPID, h, hf]
    · simp only [updateByPID, h, if_false]
      simpa [findNodeByPID, h] using ih

theorem updateByPID_map_pid (l : List ScheduleItem) (g : Nat)
    (f : ScheduleItem → ScheduleItem) (hf : ∀ it, (f it).pid = it.pid) :
    (updateByPID l g f).2.map ScheduleItem.pid = l.map ScheduleItem.pid := by
  induction l with
  | nil => simp [updateByPID]
  | cons it rest ih =>
    by_cases h : it.pid = g <;> simp [updateByPID, h, hf, ih]

theorem updateByPID_eq_self (l : List ScheduleItem) (g : Nat)
    (f : ScheduleItem → ScheduleItem)
    (h : ∀ it, findNodeByPID l g = some it → f it = it) :
    (updateByPID l g f).2 = l := by
  induction l with
  | nil => simp [updateByPID]
  | cons it rest ih =>
    by_cases hpid : it.pid = g
    · have : f it = it := h it (by simp [findNodeByPID, hpid])
      simp [updateByPID, hpid, this]
    · have : (updateByPID rest g f).2 = rest := by
        apply ih
        intro it' hit'
        exact h it' (by simpa [findNodeByPID, hpid] using hit')
      simp [updateByPID, hpid, this]

theorem updateByPID_updateByPID (l : List ScheduleItem) (g : Nat)
    (f : ScheduleItem → ScheduleItem) (hff : ∀ it, f (f it) = f it)
    (hf : ∀ it, (f it).pid = it.pid) :
    (updateByPID (updateByPID l g f).2 g f).2 = (updateByPID l g f).2 := by
  induction l with
  | nil => simp [updateByPID]
  | cons it rest ih =>
    by_cases h : it.pid = g
    · simp [updateByPID, h, hf, hff]
    · simp [updateByPID, h, ih]

theorem mem_removeByPID (l : List ScheduleItem) (g : Nat) (it : ScheduleItem)
    (h : it ∈ (removeByPID l g).2) : it ∈ l := by
  induction l with
  | nil => simpa [removeByPID] using h
  | cons it' rest ih =>
    by_cases hpid : it'.pid = g
    · simp only [removeByPID, hpid, if_true] at h
      exact List.mem_cons_of_mem _ h
    · simp only [removeByPID, hpid, if_false, List.mem_cons] at h
      rcases h with h | h
      · exact h ▸ List.mem_cons_self _ _
      · exact List.mem_cons_of_mem _ (ih h)

theorem findNodeByPID_map (l : List ScheduleItem) (g : Nat)
    (f : ScheduleItem → ScheduleItem) (hf : ∀ it, (f it).pid = it.pid) :
    findNodeByPID (l.map f) g = (findNodeByPID l g).map f := by
  induction l with
  | nil => simp [findNodeByPID]
  | cons it rest ih =>
    by_cases h : it.pid = g <;>
      simpa [findNodeByPID, h, hf, Function.comp] using ih

theorem advanceItem_pid (elapsed : Nat) (it : ScheduleItem) :
    (advanceItem elapsed it).pid = it.pid := by
  by_cases h : it.thread_enabled = true
  · by_cases h2 : it.thread_time_to_wait - elapsed = 0 <;> simp [advanceItem, h, h2]
  · simp [advanceItem, h]

theorem advanceItem_of_disabled (elapsed : Nat) (it : ScheduleItem)
    (h : it.thread_enabled = false) : advanceItem elapsed it = it := by
  simp [advanceItem, h]

theorem serviceItem_pid (d : Nat) (it it' : ScheduleItem)
    (h : serviceItem d it = some it') : it'.pid = it.pid := by
  by_cases hf : it.thread_fire = true
  · by_cases hr : recursAfterFire it.thread_recurs = 0
    · by_cases ha : it.autoclear = true
      · simp [serviceItem, hf, hr, ha] at h
      · simp [serviceItem, hf, hr, ha] at h
        subst h; rfl
    · by_cases he : it.thread_enabled = true
      · simp [serviceItem, hf, hr, he] at h
        subst h; rfl
      · simp [serviceItem, hf, hr, he] at h
        subst h; rfl
  · simp [serviceItem, hf] at h
    subst h; rfl

theorem findNodeByPID_append_of_none (l l' : List ScheduleItem) (g : Nat)
    (h : findNodeByPID l g = none) :
    findNodeByPID (l ++ l') g = findNodeByPID l' g := by
  induction l with
  | nil => simp [findNodeByPID]
  | cons it rest ih =>
    by_cases hpid : it.pid = g
    · simp [findNodeByPID, hpid] at h
    · simp only [findNodeByPID, List.cons_append] at h ⊢
      rw [List.find?_cons_of_neg _ (by simpa using hpid)] at h ⊢
      exact ih h

/-! ## C2: advance decrements countdowns, clamped at zero -/

/-- C2: the advance operation takes an elapsed-tick count and, for every
enabled schedule, decrements `time_to_wait` by that elapsed amount, clamped at
zero (it never underflows below zero); when `time_to_wait` reaches zero it sets
`fire_pending = true` and leaves `time_to_wait` at zero — the period is
untouched, so advance does not reset the countdown to the period. -/
theorem advance_decrements_clamped (s : Scheduler) (elapsed : Nat) :
    (advanceScheduler s elapsed).schedules = s.schedules.map (advanceItem elapsed)
    ∧ ∀ it : ScheduleItem, it.thread_enabled = true →
        ((advanceItem elapsed it).thread_time_to_wait : Int)
            = max ((it.thread_time_to_wait : Int) - (elapsed : Int)) 0
        ∧ (advanceItem elapsed it).thread_time_to_wait
            = it.thread_time_to_wait - elapsed
        ∧ ((advanceItem elapsed it).thread_time_to_wait = 0 →
            (advanceItem elapsed it).thread_fire = true)
        ∧ (advanceItem elapsed it).thread_period = it.thread_period := by
  refine ⟨rfl, ?_⟩
  intro it he
  by_cases h2 : it.thread_time_to_wait - elapsed = 0 <;>
    simp [advanceItem, he, h2] <;> omega

/-- Witness for C2 at a concrete enabled schedule and elapsed count. -/
theorem advance_decrements_clamped_w :
    itW.thread_enabled = true
    ∧ ((advanceItem 3 itW).thread_time_to_wait : Int)
        = max ((itW.thread_time_to_wait : Int) - (3 : Int)) 0
    ∧ (advanceItem 3 itW).thread_period = itW.thread_period :=
  ⟨by decide,
   ((advance_decrements_clamped sW 3).2 itW (by decide)).1,
   ((advance_decrements_clamped sW 3).2 itW (by decide)).2.2.2⟩

/-! ## C7: enable/disable change only the enabled flag -/

theorem frameAgrees_refl (a : ScheduleItem) : frameAgrees a a :=
  ⟨rfl, rfl, rfl, rfl, rfl, rfl, rfl, rfl⟩

theorem forall2_frameAgrees_refl (l : List ScheduleItem) :
    List.Forall₂ frameAgrees l l := by
  induction l with
  | nil => exact List.Forall₂.nil
  | cons it rest ih => exact List.Forall₂.cons (frameAgrees_refl it) ih

theorem updateByPID_forall2 (l : List ScheduleItem) (g : Nat)
    (f : ScheduleItem → ScheduleItem) (hf : ∀ it, frameAgrees it (f it)) :
    List.Forall₂ frameAgrees l (updateByPID l g f).2 := by
  induction l with
  | nil => exact List.Forall₂.nil
  | cons it rest ih =>
    by_cases h : it.pid = g
    · simp only [updateByPID, h, if_true]
      exact List.Forall₂.cons (hf it) (forall2_frameAgrees_refl rest)
    · simp only [updateByPID, h, if_false]
      exact List.Forall₂.cons (frameAgrees_refl it) ih

/-- C7: `enableSchedule` and `disableSchedule` change only the enabled flag:
every schedule in the registry keeps its `time_to_wait`, `recurrence_counter`,
`period`, `auto_remove`, callback and attached profiling data, and the found
schedule's record differs from the old one at most in `thread_enabled`. -/
theorem enable_disable_frame (s : Scheduler) (g_pid : Nat) :
    List.Forall₂ frameAgrees s.schedules ((enableSchedule s g_pid).2).schedules
    ∧ List.Forall₂ frameAgrees s.schedules ((disableSchedule s g_pid).2).schedules
    ∧ findNodeByPID ((enableSchedule s g_pid).2).schedules g_pid
        = (findNodeByPID s.schedules g_pid).map
            (fun it => { it with thread_enabled := true })
    ∧ findNodeByPID ((disableSchedule s g_pid).2).schedules g_pid
        = (findNodeByPID s.schedules g_pid).map
            (fun it => { it with thread_enabled := false }) := by
  refine ⟨?_, ?_, ?_, ?_⟩
  · exact updateByPID_forall2 _ _ _
      (fun it => ⟨rfl, rfl, rfl, rfl, rfl, rfl, rfl, rfl⟩)
  · exact updateByPID_forall2 _ _ _
      (fun it => ⟨rfl, rfl, rfl, rfl, rfl, rfl, rfl, rfl⟩)
  · exact findNodeByPID_updateByPID _ _ _ (fun it => rfl)
  · exact findNodeByPID_updateByPID _ _ _ (fun it => rfl)

/-- Witness for C7 at the concrete state `sW`. -/
theorem enable_disable_frame_w :
    List.Forall₂ frameAgrees sW.schedules ((disableSchedule sW 1).2).schedules :=
  (enable_disable_frame sW 1).2.1

/-! ## C9: createSchedule failure and success modes -/

theorem createSchedule_success (s : Scheduler) (sch_period : Nat)
    (recurrence : Int) (auto_clear : Bool) (c : Nat) (hnp : s.next_pid ≠ 0) :
    createSchedule s sch_period recurrence auto_clear (some c)
      = (s.next_pid,
         { s with next_pid := u32 (s.next_pid + 1),
                  schedules := s.schedules
                    ++ [newSchedItem s sch_period recurrence auto_clear c] }) := by
  simp [createSchedule, get_valid_new_pid, hnp, newSchedItem]

/-- C9: `createSchedule` returns the invalid id `0` exactly when the
identifier space is exhausted or the supplied callback is null, a failed call
leaves the engine state (registry and next-id counter) unchanged, and a
successful call returns the non-zero next pid and appends a schedule
initialised with `time_to_wait = period`, `enabled = true`,
`fire_pending = false`. -/
theorem createSchedule_failure_success (s : Scheduler) (sch_period : Nat)
    (recurrence : Int) (auto_clear : Bool) (cb : Option Nat) :
    ((createSchedule s sch_period recurrence auto_clear cb).1 = 0
        ↔ (cb = none ∨ s.next_pid = 0))
    ∧ ((createSchedule s sch_period recurrence auto_clear cb).1 = 0 →
        (createSchedule s sch_period recurrence auto_clear cb).2 = s)
    ∧ (∀ c : Nat, cb = some c → s.next_pid ≠ 0 →
        (createSchedule s sch_period recurrence auto_clear cb).1 = s.next_pid
        ∧ (createSchedule s sch_period recurrence auto_clear cb).2.schedules
            = s.schedules ++ [newSchedItem s sch_period recurrence auto_clear c]
        ∧ (newSchedItem s sch_period recurrence auto_clear c).thread_time_to_wait
            = u32 sch_period
        ∧ (newSchedItem s sch_period recurrence auto_clear c).thread_enabled = true
        ∧ (newSchedItem s sch_period recurrence auto_clear c).thread_fire = false) := by
  refine ⟨?_, ?_, ?_⟩
  · cases cb with
    | none => simp [createSchedule]
    | some c =>
      by_cases hnp : s.next_pid = 0
      · simp [createSchedule, get_valid_new_pid, hnp]
      · simp [createSchedule_success s sch_period recurrence auto_clear c hnp, hnp]
  · cases cb with
    | none => intro _; rfl
    | some c =>
      by_cases hnp : s.next_pid = 0
      · intro _; simp [createSchedule, get_valid_new_pid, hnp]
      · intro h0
        rw [createSchedule_success s sch_period recurrence auto_clear c hnp] at h0
        exact absurd h0 hnp
  · intro c hcb hnp
    subst hcb
    rw [createSchedule_success s sch_period recurrence auto_clear c hnp]
    exact ⟨rfl, rfl, rfl, rfl, rfl⟩

/-- Witness for C9: a null-callback create fails and leaves the engine
unchanged; a valid create from the initial engine returns pid `1`. -/
theorem createSchedule_failure_success_w :
    (createSchedule initScheduler 10 2 true none).1 = 0
    ∧ (createSchedule initScheduler 10 2 true none).2 = initScheduler
    ∧ (createSchedule initScheduler 10 2 true (some 5)).1 = initScheduler.next_pid :=
  ⟨(createSchedule_failure_success initScheduler 10 2 true none).1.mpr (Or.inl rfl),
   (createSchedule_failure_success initScheduler 10 2 true none).2.1
     ((createSchedule_failure_success initScheduler 10 2 true none).1.mpr (Or.inl rfl)),
   ((createSchedule_failure_success initScheduler 10 2 true (some 5)).2.2 5 rfl
     (by decide)).1⟩

/-! ## C10: the recurrence counter is a 16-bit signed value -/

/-- C10: the recurrence counter is stored through the `int16_t` conversion
while period and countdown are 32-bit unsigned: every stored recurrence value
lies in `-32768 .. 32767` (so at most `32767` remaining firings are
representable), values in that range are stored exactly, values outside it
cannot be represented, and this applies to the values stored both by
`createSchedule` and by `alterScheduleRecurrence`. -/
theorem recurrence_is_int16 (x : Int) (s : Scheduler) (g_pid sch_period : Nat) :
    (-32768 ≤ toInt16 x ∧ toInt16 x ≤ 32767)
    ∧ (-32768 ≤ x → x ≤ 32767 → toInt16 x = x)
    ∧ ((x < -32768 ∨ 32767 < x) → toInt16 x ≠ x)
    ∧ (∀ it : ScheduleItem,
        findNodeByPID ((alterScheduleRecurrence s g_pid x).2).schedules g_pid
            = some it →
        it.thread_recurs = toInt16 x
        ∧ -32768 ≤ it.thread_recurs ∧ it.thread_recurs ≤ 32767)
    ∧ (∀ auto_clear c,
        (newSchedItem s sch_period x auto_clear c).thread_recurs = toInt16 x
        ∧ (newSchedItem s sch_period x auto_clear c).thread_period < 2 ^ 32
        ∧ (newSchedItem s sch_period x auto_clear c).thread_time_to_wait < 2 ^ 32) := by
  have hrange : -32768 ≤ toInt16 x ∧ toInt16 x ≤ 32767 := by
    unfold toInt16; omega
  refine ⟨hrange, ?_, ?_, ?_, ?_⟩
  · intro h1 h2; unfold toInt16; omega
  · intro h; unfold toInt16 at hrange ⊢; omega
  · intro it hit
    have heq : findNodeByPID ((alterScheduleRecurrence s g_pid x).2).schedules g_pid
        = (findNodeByPID s.schedules g_pid).map
            (fun it => { it with thread_recurs := toInt16 x }) :=
      findNodeByPID_updateByPID _ _ _ (fun it => rfl)
    rw [heq] at hit
    cases hfind : findNodeByPID s.schedules g_pid with
    | none => rw [hfind] at hit; exact absurd hit (by simp)
    | some it0 =>
      rw [hfind] at hit
      simp only [Option.map_some', Option.some.injEq] at hit
      subst hit
      exact ⟨rfl, hrange.1, hrange.2⟩
  · intro auto_clear c
    refine ⟨rfl, ?_, ?_⟩ <;>
      exact Nat.mod_lt _ (by norm_num)

/-- Witness for C10 at the out-of-range value `40000`. -/
theorem recurrence_is_int16_w :
    (-32768 ≤ toInt16 40000 ∧ toInt16 40000 ≤ 32767)
    ∧ toInt16 40000 ≠ 40000
    ∧ (newSchedItem sW 10 40000 false 7).thread_recurs = toInt16 40000 :=
  ⟨(recurrence_is_int16 40000 sW 1 10).1,
   (recurrence_is_int16 40000 sW 1 10).2.2.1 (Or.inr (by norm_num)),
   ((recurrence_is_int16 40000 sW 1 10).2.2.2.2 false 7).1⟩

/-! ## C5: willRunAgain immediately after createSchedule -/

/-- C5 counterexample: a successful `createSchedule` with recurrence `-2`
(which is non-zero) is immediately followed by `willRunAgain` returning
`false`, refuting "create followed immediately by willRunAgain returns true
iff recurrence is non-zero": `willRunAgain` demands the counter be `-1` or
positive, and `-2` is neither. -/
theorem create_willRunAgain_cex :
    (createSchedule initScheduler 10 (-2) false (some 1)).1 ≠ 0
    ∧ ((-2 : Int) ≠ 0)
    ∧ willRunAgain (createSchedule initScheduler 10 (-2) false (some 1)).2
        (createSchedule initScheduler 10 (-2) false (some 1)).1 = false := by
  refine ⟨?_, by decide, ?_⟩ <;> decide

/-- C5 (amended): a successful `createSchedule(period, r, auto, cb)` followed
immediately by `willRunAgain` on the returned id returns true iff the stored
recurrence value is `-1` or greater than `0` (for input values in the
`int16_t` range, iff `r = -1` or `r > 0`; not iff `r ≠ 0`). -/
theorem create_willRunAgain (s : Scheduler) (sch_period : Nat) (x : Int)
    (auto_clear : Bool) (c : Nat) (hnp : s.next_pid ≠ 0)
    (hfresh : findNodeByPID s.schedules s.next_pid = none) :
    willRunAgain (createSchedule s sch_period x auto_clear (some c)).2
        (createSchedule s sch_period x auto_clear (some c)).1
      = (toInt16 x == -1 || decide (0 < toInt16 x)) := by
  rw [createSchedule_success s sch_period x auto_clear c hnp]
  unfold willRunAgain
  have hfind : findNodeByPID
      (s.schedules ++ [newSchedItem s sch_period x auto_clear c]) s.next_pid
      = some (newSchedItem s sch_period x auto_clear c) := by
    rw [findNodeByPID_append_of_none _ _ _ hfresh]
    simp [findNodeByPID, newSchedItem]
  dsimp only
  rw [hfind]
  simp [newSchedItem]

/-- Witness for the amended C5: from the fresh engine, recurrence `3` gives a
schedule that will run again. -/
theorem create_willRunAgain_w :
    initScheduler.next_pid ≠ 0
    ∧ findNodeByPID initScheduler.schedules initScheduler.next_pid = none
    ∧ willRunAgain (createSchedule initScheduler 10 3 false (some 1)).2
        (createSchedule initScheduler 10 3 false (some 1)).1 = true := by
  refine ⟨by decide, by decide, ?_⟩
  rw [create_willRunAgain initScheduler 10 3 false 1 (by decide) (by decide)]
  decide

/-! ## C6: alterSchedulePeriod then zero-argument delaySchedule -/

/-- C6: for a schedule present in the registry, `alterSchedulePeriod(id, P)`
followed by the zero-argument `delaySchedule(id)` leaves the schedule with
`time_to_wait = P` and `enabled = true`: the zero-argument variant re-arms the
schedule from its canonical period. -/
theorem alterPeriod_then_delayReset (s : Scheduler) (g_pid : Nat) (P : Nat)
    (hP : P < 2 ^ 32)
    (hfound : (alterSchedulePeriod s g_pid P).1 = true) :
    (findNodeByPID
        ((delayScheduleReset (alterSchedulePeriod s g_pid P).2 g_pid).2).schedules
        g_pid).isSome = true
    ∧ ∀ it : ScheduleItem,
        findNodeByPID
            ((delayScheduleReset (alterSchedulePeriod s g_pid P).2 g_pid).2).schedules
            g_pid = some it →
        it.thread_time_to_wait = P ∧ it.thread_enabled = true := by
  have h1 : findNodeByPID ((alterSchedulePeriod s g_pid P).2).schedules g_pid
      = (findNodeByPID s.schedules g_pid).map
          (fun it => { it with thread_period := u32 P }) :=
    findNodeByPID_updateByPID _ _ _ (fun it => rfl)
  have h2 : findNodeByPID
      ((delayScheduleReset (alterSchedulePeriod s g_pid P).2 g_pid).2).schedules g_pid
      = (findNodeByPID ((alterSchedulePeriod s g_pid P).2).schedules g_pid).map
          (fun it => { it with thread_time_to_wait := it.thread_period,
                               thread_enabled := true }) :=
    findNodeByPID_updateByPID _ _ _ (fun it => rfl)
  have hfound' : (findNodeByPID s.schedules g_pid).isSome = true := by
    rw [← updateByPID_fst s.schedules g_pid
      (fun it => { it with thread_period := u32 P })]
    exact hfound
  cases hfind : findNodeByPID s.schedules g_pid with
  | none => rw [hfind] at hfound'; simp at hfound'
  | some it0 =>
    rw [h2, h1, hfind]
    simp only [Option.map_some', Option.isSome_some, Option.some.injEq, true_and]
    intro it hit
    rw [← hit]
    exact ⟨Nat.mod_eq_of_lt hP, rfl⟩

/-- Witness for C6: altering the period of the schedule in `sW` to `42` and
re-arming it yields a countdown of `42` on an enabled schedule. -/
theorem alterPeriod_then_delayReset_w :
    42 < 2 ^ 32 ∧ (alterSchedulePeriod sW 1 42).1 = true
    ∧ ∀ it : ScheduleItem,
        findNodeByPID ((delayScheduleReset (alterSchedulePeriod sW 1 42).2 1).2).schedules
            1 = some it →
        it.thread_time_to_wait = 42 ∧ it.thread_enabled = true :=
  ⟨by norm_num, by decide,
   (alterPeriod_then_delayReset sW 1 42 (by norm_num) (by decide)).2⟩

/-! ## C8: profiling operations are idempotent, clearing preserves active -/

theorem schedulesUpdate_self (s : Scheduler) (g : Nat)
    (f : ScheduleItem → ScheduleItem)
    (h : ∀ it, findNodeByPID s.schedules g = some it → f it = it) :
    ({ s with schedules := (updateByPID s.schedules g f).2 } : Scheduler) = s := by
  rw [updateByPID_eq_self s.schedules g f h]

theorem schedulesUpdate_twice (s : Scheduler) (g : Nat)
    (f : ScheduleItem → ScheduleItem) (hff : ∀ it, f (f it) = f it)
    (hf : ∀ it, (f it).pid = it.pid) :
    ({ s with
        schedules := (updateByPID (updateByPID s.schedules g f).2 g f).2 } : Scheduler)
      = { s with schedules := (updateByPID s.schedules g f).2 } := by
  rw [updateByPID_updateByPID s.schedules g f hff hf]

/-- C8: on a schedule whose profile exists and is active, `beginProfiling` is
a no-op (the accumulated statistics are untouched); `stopProfiling` twice in a
row yields the same state as once; and `clearProfilingData` resets the
counters while leaving the active flag unchanged. -/
theorem profiling_idempotent (s : Scheduler) (g_pid : Nat) :
    (scheduleBeingProfiled s g_pid = true → beginProfiling s g_pid = s)
    ∧ stopProfiling (stopProfiling s g_pid) g_pid = stopProfiling s g_pid
    ∧ (∀ it : ScheduleItem, ∀ p : ScheduleProfile,
        findNodeByPID s.schedules g_pid = some it → it.prof_data = some p →
        ∀ it' : ScheduleItem,
          findNodeByPID (clearProfilingData s g_pid).schedules g_pid = some it' →
          it'.prof_data = some (clearedProfile p.profiling_active)) := by
  refine ⟨?_, ?_, ?_⟩
  · intro hprof
    unfold scheduleBeingProfiled at hprof
    show ({ s with schedules := (updateByPID s.schedules g_pid (fun it =>
        match it.prof_data with
        | none => { it with prof_data := some freshProfile }
        | some p =>
          { it with prof_data := some { p with profiling_active := true } })).2 }
        : Scheduler) = s
    apply schedulesUpdate_self
    intro it hit
    rw [hit] at hprof
    cases hp : it.prof_data with
    | none => simp [hp] at hprof
    | some p =>
      simp [hp] at hprof
      simp only [hp]
      have hpp : ({ p with profiling_active := true } : ScheduleProfile) = p := by
        cases p with
        | mk a b c d e => simp_all
      rw [hpp, ← hp]
  · exact schedulesUpdate_twice s g_pid (fun it =>
      match it.prof_data with
      | none => it
      | some p => { it with prof_data := some { p with profiling_active := false } })
      (fun it => by cases hp : it.prof_data <;> simp [hp])
      (fun it => by cases hp : it.prof_data <;> simp [hp])
  · intro it p hit hp it' hit'
    have heq : findNodeByPID (clearProfilingData s g_pid).schedules g_pid
        = (findNodeByPID s.schedules g_pid).map (fun it =>
            match it.prof_data with
            | none => it
            | some p =>
              { it with prof_data := some (clearedProfile p.profiling_active) }) :=
      findNodeByPID_updateByPID s.schedules g_pid _
        (fun it0 => by cases hp0 : it0.prof_data <;> simp [hp0])
    rw [heq, hit] at hit'
    simp only [Option.map_some', Option.some.injEq] at hit'
    rw [← hit']
    simp [hp]

/-- Witness for C8 at the concrete profiled state `sP`. -/
theorem profiling_idempotent_w :
    scheduleBeingProfiled sP 1 = true
    ∧ beginProfiling sP 1 = sP
    ∧ stopProfiling (stopProfiling sP 1) 1 = stopProfiling sP 1
    ∧ ∀ it' : ScheduleItem,
        findNodeByPID (clearProfilingData sP 1).schedules 1 = some it' →
        it'.prof_data = some (clearedProfile true) :=
  ⟨by decide,
   (profiling_idempotent sP 1).1 (by decide),
   (profiling_idempotent sP 1).2.1,
   (profiling_idempotent sP 1).2.2 itP profW (by decide) (by decide)⟩

/-! ## C4: the service pass recurrence policy -/

/-- C4: a `serviceScheduledEvents` pass serves exactly the fire-pending
schedules, and for each one, after its callback is invoked (the active profile
records the duration sample), the recurrence policy is: a counter greater than
`0` is decremented; a counter of `-1` or below `-1` is not decremented; if the
decremented (or already-zero) counter is `0` the schedule is disabled, or
deleted from the registry when `auto_remove` is set; if the schedule remains
enabled its countdown is reset to `period` and the fire-pending flag is
cleared. -/
theorem service_recurrence_policy (s : Scheduler) (dur : Nat → Nat) :
    (serviceScheduledEvents s dur).schedules
        = s.schedules.filterMap (fun it => serviceItem (dur it.pid) it)
    ∧ ∀ (d : Nat) (it : ScheduleItem),
        (it.thread_fire = false → serviceItem d it = some it)
        ∧ (it.thread_fire = true →
            (0 < it.thread_recurs →
              recursAfterFire it.thread_recurs = it.thread_recurs - 1)
            ∧ (it.thread_recurs < -1 →
              recursAfterFire it.thread_recurs = it.thread_recurs)
            ∧ (it.thread_recurs = -1 → recursAfterFire it.thread_recurs = -1)
            ∧ (recursAfterFire it.thread_recurs = 0 → it.autoclear = true →
                serviceItem d it = none)
            ∧ (recursAfterFire it.thread_recurs = 0 → it.autoclear = false →
                serviceItem d it = some { it with
                  prof_data := it.prof_data.map (profSample d),
                  thread_recurs := 0, thread_enabled := false })
            ∧ (recursAfterFire it.thread_recurs ≠ 0 → it.thread_enabled = true →
                serviceItem d it = some { it with
                  prof_data := it.prof_data.map (profSample d),
                  thread_recurs := recursAfterFire it.thread_recurs,
                  thread_time_to_wait := it.thread_period,
                  thread_fire := false })) := by
  refine ⟨rfl, ?_⟩
  intro d it
  constructor
  · intro hf; simp [serviceItem, hf]
  · intro hf
    refine ⟨?_, ?_, ?_, ?_, ?_, ?_⟩
    · intro h; simp [recursAfterFire, h]
    · intro h; simp [recursAfterFire]; omega
    · intro h; simp [recursAfterFire, h]
    · intro hr ha; simp [serviceItem, hf, hr, ha]
    · intro hr ha; simp [serviceItem, hf, hr, ha]
    · intro hr he; simp [serviceItem, hf, hr, he]

/-- Witness for C4: servicing the fire-pending `itF` (infinite recurrence)
re-arms it: countdown reset to its period, fire-pending cleared, counter
untouched. -/
theorem service_recurrence_policy_w :
    itF.thread_fire = true
    ∧ recursAfterFire itF.thread_recurs = -1
    ∧ serviceItem 4 itF = some { itF with
        prof_data := itF.prof_data.map (profSample 4),
        thread_recurs := recursAfterFire itF.thread_recurs,
        thread_time_to_wait := itF.thread_period, thread_fire := false } :=
  ⟨by decide,
   ((service_recurrence_policy sW (fun _ => 4)).2 4 itF).2 (by decide) |>.2.2.1 (by decide),
   ((service_recurrence_policy sW (fun _ => 4)).2 4 itF).2 (by decide) |>.2.2.2.2.2
     (by decide) (by decide)⟩

/-! ## C3: a disabled schedule is never fired by advance -/

theorem advanceMany_of_disabled (g : Nat) (es : List Nat) :
    ∀ s : Scheduler,
      (∀ it, findNodeByPID s.schedules g = some it → it.thread_enabled = false) →
      findNodeByPID (advanceMany s es).schedules g = findNodeByPID s.schedules g := by
  induction es with
  | nil => intro s _; rfl
  | cons e rest ih =>
    intro s hdis
    have hstep : findNodeByPID (advanceScheduler s e).schedules g
        = findNodeByPID s.schedules g := by
      have hmap : findNodeByPID (s.schedules.map (advanceItem e)) g
          = (findNodeByPID s.schedules g).map (advanceItem e) :=
        findNodeByPID_map s.schedules g (advanceItem e) (advanceItem_pid e)
      cases hfind : findNodeByPID s.schedules g with
      | none => rw [hfind] at hmap; exact hmap
      | some it =>
        rw [hfind] at hmap
        simpa [advanceItem_of_disabled e it (hdis it hfind)] using hmap
    have hrest := ih (advanceScheduler s e)
      (by intro it hit; rw [hstep] at hit; exact hdis it hit)
    rw [hstep] at hrest
    simpa [advanceMany] using hrest

/-- C3: once `disableSchedule` has run on a schedule, no subsequent sequence
of advance passes changes that schedule at all — in particular none of them
ever sets its fire-pending flag, regardless of the elapsed tick counts —
because advance only evaluates enabled schedules. -/
theorem disable_blocks_advance (s : Scheduler) (g_pid : Nat) (es : List Nat) :
    findNodeByPID (advanceMany (disableSchedule s g_pid).2 es).schedules g_pid
      = findNodeByPID ((disableSchedule s g_pid).2).schedules g_pid
    ∧ ∀ it : ScheduleItem,
        findNodeByPID ((disableSchedule s g_pid).2).schedules g_pid = some it →
        it.thread_enabled = false := by
  have hdisable : findNodeByPID ((disableSchedule s g_pid).2).schedules g_pid
      = (findNodeByPID s.schedules g_pid).map
          (fun it => { it with thread_enabled := false }) :=
    findNodeByPID_updateByPID s.schedules g_pid _ (fun it => rfl)
  have hdis : ∀ it : ScheduleItem,
      findNodeByPID ((disableSchedule s g_pid).2).schedules g_pid = some it →
      it.thread_enabled = false := by
    intro it hit
    rw [hdisable] at hit
    cases hfind : findNodeByPID s.schedules g_pid with
    | none => rw [hfind] at hit; simp at hit
    | some it0 =>
      rw [hfind] at hit
      simp only [Option.map_some', Option.some.injEq] at hit
      rw [← hit]
  exact ⟨advanceMany_of_disabled g_pid es _ hdis, hdis⟩

/-- Witness for C3: after disabling the schedule of `sW`, two advance passes
leave its record untouched and not fire-pending. -/
theorem disable_blocks_advance_w :
    findNodeByPID (advanceMany (disableSchedule sW 1).2 [5, 7]).schedules 1
      = findNodeByPID ((disableSchedule sW 1).2).schedules 1
    ∧ findNodeByPID ((disableSchedule sW 1).2).schedules 1 = some itD
    ∧ itD.thread_enabled = false
    ∧ itD.thread_fire = false :=
  ⟨(disable_blocks_advance sW 1 [5, 7]).1, by decide,
   (disable_blocks_advance sW 1 [5, 7]).2 itD (by decide), by decide⟩

/-! ## C1: pids are non-zero, unique, and never reassigned -/

theorem map_pid_map (l : List ScheduleItem) (f : ScheduleItem → ScheduleItem)
    (hf : ∀ it, (f it).pid = it.pid) :
    (l.map f).map ScheduleItem.pid = l.map ScheduleItem.pid := by
  induction l with
  | nil => rfl
  | cons it rest ih => simp [hf, ih]

theorem mem_pid_of_map_eq (l l' : List ScheduleItem)
    (h : l'.map ScheduleItem.pid = l.map ScheduleItem.pid) (ids : List Nat)
    (hl : ∀ it ∈ l, it.pid ∈ ids) : ∀ it ∈ l', it.pid ∈ ids := by
  intro it hit
  have hm : it.pid ∈ l'.map ScheduleItem.pid := List.mem_map_of_mem _ hit
  rw [h] at hm
  rcases List.mem_map.mp hm with ⟨it0, hit0, hpid⟩
  rw [← hpid]
  exact hl it0 hit0

theorem inv_update (s : Scheduler) (ids : List Nat) (g : Nat)
    (f : ScheduleItem → ScheduleItem) (hf : ∀ it, (f it).pid = it.pid)
    (h : EngineInv s ids) :
    EngineInv ({ s with schedules := (updateByPID s.schedules g f).2 } : Scheduler)
      ids := by
  obtain ⟨h1, h2, h3, h4⟩ := h
  exact ⟨h1, h2,
    mem_pid_of_map_eq s.schedules _ (updateByPID_map_pid s.schedules g f hf) ids h3,
    h4⟩

theorem inv_remove (s : Scheduler) (ids : List Nat) (g : Nat)
    (h : EngineInv s ids) :
    EngineInv ({ s with schedules := (removeByPID s.schedules g).2 } : Scheduler)
      ids := by
  obtain ⟨h1, h2, h3, h4⟩ := h
  exact ⟨h1, h2, fun it hit => h3 it (mem_removeByPID s.schedules g it hit), h4⟩

theorem inv_advance (s : Scheduler) (ids : List Nat) (e : Nat)
    (h : EngineInv s ids) : EngineInv (advanceScheduler s e) ids := by
  obtain ⟨h1, h2, h3, h4⟩ := h
  exact ⟨h1, h2,
    mem_pid_of_map_eq s.schedules _
      (map_pid_map s.schedules (advanceItem e) (advanceItem_pid e)) ids h3,
    h4⟩

theorem inv_service (s : Scheduler) (ids : List Nat) (dur : Nat → Nat)
    (h : EngineInv s ids) : EngineInv (serviceScheduledEvents s dur) ids := by
  obtain ⟨h1, h2, h3, h4⟩ := h
  refine ⟨h1, h2, ?_, h4⟩
  intro it' hit'
  rcases List.mem_filterMap.mp hit' with ⟨it, hit, hsome⟩
  rw [serviceItem_pid (dur it.pid) it it' hsome]
  exact h3 it hit

theorem inv_create (s : Scheduler) (ids : List Nat) (p : Nat) (x : Int)
    (a : Bool) (cb : Option Nat) (h : EngineInv s ids) :
    EngineInv (createSchedule s p x a cb).2
      (ids ++ opCreated s (Op.create p x a cb)) := by
  obtain ⟨h1, h2, h3, h4⟩ := h
  cases cb with
  | none => simpa [createSchedule, opCreated] using ⟨h1, h2, h3, h4⟩
  | some c =>
    by_cases hnp : s.next_pid = 0
    · have hfail : createSchedule s p x a (some c) = (0, s) := by
        simp [createSchedule, get_valid_new_pid, hnp]
      simpa [opCreated, hfail] using ⟨h1, h2, h3, h4⟩
    · have hsucc := createSchedule_success s p x a c hnp
      have hcreated : opCreated s (Op.create p x a (some c)) = [s.next_pid] := by
        simp [opCreated, hsucc, hnp]
      rw [hcreated, hsucc]
      have hlt : ∀ i ∈ ids, i < s.next_pid := by
        intro i hi
        rcases h2 i hi with ⟨-, h0 | hlt⟩
        · exact absurd h0 hnp
        · exact hlt
      refine ⟨?_, ?_, ?_, ?_⟩
      · rw [List.nodup_append]
        refine ⟨h1, List.nodup_singleton _, ?_⟩
        intro i hi hmem
        rcases List.mem_singleton.mp hmem with rfl
        exact absurd (hlt _ hi) (lt_irrefl _)
      · intro i hi
        rcases List.mem_append.mp hi with hi | hi
        · have := hlt i hi
          have := (h2 i hi).1
          refine ⟨by omega, ?_⟩
          simp only [u32]
          omega
        · rcases List.mem_singleton.mp hi with rfl
          refine ⟨by omega, ?_⟩
          simp only [u32]
          omega
      · intro it hit
        rcases List.mem_append.mp hit with hit | hit
        · exact List.mem_append.mpr (Or.inl (h3 it hit))
        · rcases List.mem_singleton.mp hit with rfl
          exact List.mem_append.mpr (Or.inr (by simp [newSchedItem]))
      · exact Nat.mod_lt _ (by norm_num)

theorem applyOp_inv (s : Scheduler) (ids : List Nat) (op : Op)
    (h : EngineInv s ids) :
    EngineInv (applyOp s op) (ids ++ opCreated s op) := by
  cases op with
  | create p x a cb => exact inv_create s ids p x a cb h
  | remove g =>
    simp only [opCreated, List.append_nil]
    exact inv_remove s ids g h
  | enable g =>
    simp only [opCreated, List.append_nil]
    exact inv_update s ids g (fun it => { it with thread_enabled := true })
      (fun it => rfl) h
  | disable g =>
    simp only [opCreated, List.append_nil]
    exact inv_update s ids g (fun it => { it with thread_enabled := false })
      (fun it => rfl) h
  | delayBy g b =>
    simp only [opCreated, List.append_nil]
    exact inv_update s ids g (fun it => { it with thread_time_to_wait := u32 b })
      (fun it => rfl) h
  | delayReset g =>
    simp only [opCreated, List.append_nil]
    exact inv_update s ids g
      (fun it => { it with thread_time_to_wait := it.thread_period,
                           thread_enabled := true })
      (fun it => rfl) h
  | alterPeriod g p =>
    simp only [opCreated, List.append_nil]
    exact inv_update s ids g (fun it => { it with thread_period := u32 p })
      (fun it => rfl) h
  | alterRecurrence g x =>
    simp only [opCreated, List.append_nil]
    exact inv_update s ids g (fun it => { it with thread_recurs := toInt16 x })
      (fun it => rfl) h
  | advance e =>
    simp only [opCreated, List.append_nil]
    exact inv_advance s ids e h
  | service dur =>
    simp only [opCreated, List.append_nil]
    exact inv_service s ids dur h
  | beginProf g =>
    simp only [opCreated, List.append_nil]
    exact inv_update s ids g
      (fun it =>
        match it.prof_data with
        | none => { it with prof_data := some freshProfile }
        | some p => { it with prof_data := some { p with profiling_active := true } })
      (fun it => by cases hp : it.prof_data <;> simp [hp]) h
  | stopProf g =>
    simp only [opCreated, List.append_nil]
    exact inv_update s ids g
      (fun it =>
        match it.prof_data with
        | none => it
        | some p =>
          { it with prof_data := some { p with profiling_active := false } })
      (fun it => by cases hp : it.prof_data <;> simp [hp]) h
  | clearProf g =>
    simp only [opCreated, List.append_nil]
    exact inv_update s ids g
      (fun it =>
        match it.prof_data with
        | none => it
        | some p => { it with prof_data := some (clearedProfile p.profiling_active) })
      (fun it => by cases hp : it.prof_data <;> simp [hp]) h

theorem run_inv (ops : List Op) : ∀ (s : Scheduler) (ids : List Nat),
    EngineInv s ids → EngineInv (run s ops).1 (ids ++ (run s ops).2) := by
  induction ops with
  | nil => intro s ids h; simpa [run] using h
  | cons op rest ih =>
    intro s ids h
    have h2 := ih (applyOp s op) (ids ++ opCreated s op) (applyOp_inv s ids op h)
    simpa [run, List.append_assoc] using h2

/-- C1: over every sequence of engine operations from the initial state, the
ids returned by successful `createSchedule` calls are pairwise distinct and
non-zero, every schedule currently in the registry carries one of them (so a
fresh id differs from the id of every schedule currently or previously in the
registry, and no id is reassigned after `removeSchedule`), and the next-id
counter is monotonic: no operation ever changes it except a successful create,
which steps it forward modulo its 32-bit width. -/
theorem created_pids_unique (ops : List Op) :
    (run initScheduler ops).2.Nodup
    ∧ (∀ i ∈ (run initScheduler ops).2, i ≠ 0)
    ∧ (∀ it ∈ (run initScheduler ops).1.schedules,
        it.pid ∈ (run initScheduler ops).2)
    ∧ (∀ (s : Scheduler) (op : Op),
        (applyOp s op).next_pid = s.next_pid
        ∨ (applyOp s op).next_pid = u32 (s.next_pid + 1)) := by
  have hinv : EngineInv (run initScheduler ops).1 ([] ++ (run initScheduler ops).2) :=
    run_inv ops initScheduler []
      ⟨List.nodup_nil, by simp, by simp [initScheduler], by norm_num [initScheduler]⟩
  rw [List.nil_append] at hinv
  obtain ⟨h1, h2, h3, h4⟩ := hinv
  refine ⟨h1, ?_, h3, ?_⟩
  · intro i hi
    have := (h2 i hi).1
    omega
  · intro s op
    cases op with
    | create p x a cb =>
      cases cb with
      | none => exact Or.inl rfl
      | some c =>
        by_cases hnp : s.next_pid = 0
        · left
          show (createSchedule s p x a (some c)).2.next_pid = s.next_pid
          simp [createSchedule, get_valid_new_pid, hnp]
        · right
          show (createSchedule s p x a (some c)).2.next_pid = u32 (s.next_pid + 1)
          rw [createSchedule_success s p x a c hnp]
    | remove g => exact Or.inl rfl
    | enable g => exact Or.inl rfl
    | disable g => exact Or.inl rfl
    | delayBy g b => exact Or.inl rfl
    | delayReset g => exact Or.inl rfl
    | alterPeriod g p => exact Or.inl rfl
    | alterRecurrence g x => exact Or.inl rfl
    | advance e => exact Or.inl rfl
    | service dur => exact Or.inl rfl
    | beginProf g => exact Or.inl rfl
    | stopProf g => exact Or.inl rfl
    | clearProf g => exact Or.inl rfl

/-- Witness for C1: the trace `opsW` hands out the distinct non-zero pids
`1` and `2`; the removed pid `1` is not reassigned. -/
theorem created_pids_unique_w :
    (run initScheduler opsW).2.Nodup ∧ (run initScheduler opsW).2 = [1, 2] :=
  ⟨(created_pids_unique opsW).1, by decide⟩

end PriorityScheduler
